import Mathlib

/-!
Verification of the OCTMM module runtime (a script-driven real-time
audio-generation engine written in Rust) against its natural-language
specification.

The development shallowly embeds the parts of the source the claims touch:

* `src/runner/audio/dsp/mod.rs` — the graph engine `DspModule`: the network
  arena, the shared-parameter store and the network combinators
  (`net_from`, `net_replace`, `net_product`, `net_bus`, `net_pipe`,
  `net_chain`, `net_commit`, `shared_set`, ...), plus its string-command
  dispatcher `DspModule::command`.
* `src/runner/audio/mod.rs` — the audio output module `AudioModule`: the
  event queue fed by `play`/`stop` and the outer command dispatcher
  `AudioModule::command` (the command entry point the runner registers).
* `src/runner/timer/mod.rs` — the scheduler `TimerModule::update`.
* `src/runner/mod.rs` — the `Runner` control loop.

Modelling conventions: Rust `HashMap`s become association lists (first match
wins, insertion position is irrelevant to every claim); `f32`/`f64` values
become exact rationals (every numeric value the claims touch is exactly
representable, and no claim depends on rounding); fallible Rust paths that
`panic!`/`expect` become `Option` results with `none` for the abort; the
fundsp `Net` values are modelled as the syntax tree of the combinator calls
that built them, with the arity rules fundsp documents for `sum`, `bus`,
`product` and `pipe`.
-/

namespace OCTMM

/-- The closed set of oscillator primitives (`NodeType` in
src/runner/audio/dsp/mod.rs): Hammond, Organ, Saw, Sine, SoftSaw, Square,
Triangle. -/
inductive NodeType where
  | hammond
  | organ
  | saw
  | sine
  | softSaw
  | square
  | triangle
deriving DecidableEq, Repr

/-- A fundsp signal network (`fundsp::hacker32::Net`), modelled as the tree of
the operations that built it.  `osc t` is `Net::wrap(t.as_unit())`; every one
of the seven oscillator units takes one input (the frequency) and produces one
output.  `var name` is `Net::wrap(Box::new(var(&shared)))`, a tap on the shared
cell of that name (0 inputs, 1 output).  `constant v` is
`Net::wrap(Box::new(constant(v)))` (0 inputs, 1 output).  `sum`, `bus`,
`product` and `pipe` are the corresponding fundsp combinators.  `chained a t`
is `a` after `a.chain(t.as_unit())`.  `withBackend a` marks a network on which
`backend()` has been called, so that `has_backend` is observable; the program
never calls `backend()` on an arena network, but the state type ranges over
all values.  `committedSnap a` records that `commit()` ran on `a` (fundsp's
`commit` hands the current graph to the real-time backend and leaves the
stored graph itself unchanged; the marker keeps the call observable in the
model). -/
inductive Net where
  | osc (t : NodeType)
  | var (name : String)
  | constant (v : ℚ)
  | sum (a b : Net)
  | bus (a b : Net)
  | product (a b : Net)
  | pipe (a b : Net)
  | chained (a : Net) (t : NodeType)
  | withBackend (a : Net)
  | committedSnap (a : Net)
deriving DecidableEq, Repr

/-- Input arity of a network, after fundsp: `sum`/`product` stack the inputs
of both operands, `bus` and `pipe` take the first operand's inputs, and the
zero-input sources are `var` and `constant`. -/
def Net.inputs : Net → Nat
  | .osc _ => 1
  | .var _ => 0
  | .constant _ => 0
  | .sum a b => a.inputs + b.inputs
  | .bus a _ => a.inputs
  | .product a b => a.inputs + b.inputs
  | .pipe a _ => a.inputs
  | .chained a _ => a.inputs
  | .withBackend a => a.inputs
  | .committedSnap a => a.inputs

/-- Output arity of a network, after fundsp: the binary arithmetic combinators
keep the (equal) output arity of their operands, `pipe` takes the second
operand's outputs, a chained oscillator unit has one output. -/
def Net.outputs : Net → Nat
  | .osc _ => 1
  | .var _ => 1
  | .constant _ => 1
  | .sum a _ => a.outputs
  | .bus a _ => a.outputs
  | .product a _ => a.outputs
  | .pipe _ b => b.outputs
  | .chained _ _ => 1
  | .withBackend a => a.outputs
  | .committedSnap a => a.outputs

/-- fundsp `Net::can_sum`: summation needs equal output arities. -/
def Net.can_sum (a b : Net) : Bool := a.outputs == b.outputs

/-- fundsp `Net::can_product`: the product needs equal output arities. -/
def Net.can_product (a b : Net) : Bool := a.outputs == b.outputs

/-- fundsp `Net::can_bus`: the bus needs equal input and output arities. -/
def Net.can_bus (a b : Net) : Bool := a.inputs == b.inputs && a.outputs == b.outputs

/-- fundsp `Net::can_pipe`: serial composition needs `a`'s outputs to match
`b`'s inputs. -/
def Net.can_pipe (a b : Net) : Bool := a.outputs == b.inputs

/-- Whether `backend()` has been called on this network (fundsp
`Net::has_backend`); committing does not clear the backend. -/
def Net.hasBackend : Net → Bool
  | .withBackend _ => true
  | .committedSnap a => a.hasBackend
  | _ => false

/-- Number of primitive units in the network; stands in for fundsp's internal
`NodeId` namespace when `chain` returns the id of the unit it pushed.  No
claim depends on the particular id values, only on their being drawn from a
namespace distinct from arena handles. -/
def Net.nodeCount : Net → Nat
  | .osc _ => 1
  | .var _ => 1
  | .constant _ => 1
  | .sum a b => a.nodeCount + b.nodeCount
  | .bus a b => a.nodeCount + b.nodeCount
  | .product a b => a.nodeCount + b.nodeCount
  | .pipe a b => a.nodeCount + b.nodeCount
  | .chained a _ => a.nodeCount + 1
  | .withBackend a => a.nodeCount
  | .committedSnap a => a.nodeCount

/-- Whether a network is a structural bus node. -/
def Net.isBus : Net → Bool
  | .bus _ _ => true
  | _ => false

/-- `NodeType::as_unit` wraps each oscillator; in the model the wrapped unit
is remembered symbolically. -/
def NodeType.asUnit (t : NodeType) : Net := Net.osc t

/-- `NodeType::as_net_id`: the fixed, well-known arena indices 0–6 of the
seven pre-registered oscillators. -/
def NodeType.as_net_id : NodeType → Nat
  | .hammond => 0
  | .organ => 1
  | .saw => 2
  | .sine => 3
  | .softSaw => 4
  | .square => 5
  | .triangle => 6

/-- `NodeType::get_defaults`: the seven built-in oscillator networks the arena
starts with. -/
def NodeType.getDefaults : List Net :=
  [Net.osc .hammond, Net.osc .organ, Net.osc .saw, Net.osc .sine,
   Net.osc .softSaw, Net.osc .square, Net.osc .triangle]

/-- State of the graph engine (`DspModule` in src/runner/audio/dsp/mod.rs):
the network arena `nets`, the shared-parameter cells `shared` (name → current
value; the Rust `Shared` cell is mutated in place, which the model renders as
updating the entry), and the map `shared_to_net` from a parameter name to the
handle of its wrapping network. -/
structure DspModule where
  nets : List Net
  shared : List (String × ℚ)
  shared_to_net : List (String × Nat)
deriving DecidableEq, Repr

/-- `DspModule::new`: the arena starts holding the seven defaults, both maps
empty. -/
def DspModule.new : DspModule := ⟨NodeType.getDefaults, [], []⟩

/-- `DspModule::shared_exists`. -/
def DspModule.shared_exists (s : DspModule) (name : String) : Bool :=
  (s.shared.lookup name).isSome

/-- `DspModule::shared_get` (the cell's current value; the Rust function
returns a reference to the cell). -/
def DspModule.shared_get (s : DspModule) (name : String) : Option ℚ :=
  s.shared.lookup name

/-- `DspModule::shared_get_net`. -/
def DspModule.shared_get_net (s : DspModule) (name : String) : Option Nat :=
  s.shared_to_net.lookup name

/-- In-place update of the value cell of `name` (Rust `Shared::set` on the
entry found in the map); entries of other names are untouched, and an absent
name changes nothing. -/
def setCell (name : String) (v : ℚ) : List (String × ℚ) → List (String × ℚ)
  | [] => []
  | (n, w) :: r => if n = name then (n, v) :: r else (n, w) :: setCell name v r

/-- `DspModule::net_exists`: a handle is valid iff its index is below the
arena length. -/
def DspModule.net_exists (s : DspModule) (target : Nat) : Bool :=
  decide (target < s.nets.length)

/-- `DspModule::net_from`: push a copy of the network, return its index
(`nets.len() - 1` after the push, i.e. the old length). -/
def DspModule.net_from (s : DspModule) (n : Net) : Nat × DspModule :=
  (s.nets.length, { s with nets := s.nets ++ [n] })

/-- `DspModule::shared_set`: create-or-update.  An unseen name gets a fresh
cell and a wrapping `var` network appended to the arena, and the new handle is
recorded in `shared_to_net`; a seen name has its cell mutated in place and the
recorded handle returned.  The Rust `self.shared_get_net(name).expect("No net
id")` on the update path is the one abort possibility, rendered as `none`
(the `expect` after the fresh insertion cannot fail and is folded away). -/
def DspModule.shared_set (s : DspModule) (name : String) (v : ℚ) :
    Option (Nat × DspModule) :=
  match s.shared.lookup name with
  | none =>
      let s1 : DspModule := { s with shared := (name, v) :: s.shared }
      let r := s1.net_from (Net.var name)
      some (r.1, { r.2 with shared_to_net := (name, r.1) :: r.2.shared_to_net })
  | some _ =>
      match s.shared_to_net.lookup name with
      | none => none
      | some id => some (id, { s with shared := setCell name v s.shared })

/-- `DspModule::net_replace`: overwrite slot `target` in place and return it
when valid, otherwise fail leaving the arena unchanged. -/
def DspModule.net_replace (s : DspModule) (target : Nat) (n : Net) :
    Option Nat × DspModule :=
  if s.net_exists target then (some target, { s with nets := s.nets.set target n })
  else (none, s)

/-- `DspModule::get_net`: a copy of the network at a valid handle. -/
def DspModule.get_net (s : DspModule) (target : Nat) : Option Net :=
  if s.net_exists target then s.nets[target]? else none

/-- `DspModule::net_constant`. -/
def DspModule.net_constant (s : DspModule) (v : ℚ) : Nat × DspModule :=
  s.net_from (Net.constant v)

/-- `DspModule::net_vector_length`. -/
def DspModule.net_vector_length (s : DspModule) : Nat :=
  s.nets.length

/-- Junk network used only as the default of a bounds-checked arena read (the
Rust code indexes `self.nets[target]` after `net_exists` has succeeded). -/
def junkNet : Net := Net.constant 0

/-- `DspModule::net_product`: requires both handles valid, `can_product`, and
`b` with zero inputs ("only works with constants / shared"); on success a new
slot holding the product is appended. -/
def DspModule.net_product (s : DspModule) (ta tb : Nat) : Option Nat × DspModule :=
  if !(s.net_exists ta) || !(s.net_exists tb) then (none, s)
  else
    let na := s.nets.getD ta junkNet
    let nb := s.nets.getD tb junkNet
    if !(Net.can_product na nb) || nb.inputs != 0 then (none, s)
    else
      let r := s.net_from (Net.product na nb)
      (some r.1, r.2)

/-- `DspModule::net_bus`: buses two networks together, except that when one or
more of the operands has zero inputs they are summed instead (the code comment
calls this the intended behaviour for constants / shared). -/
def DspModule.net_bus (s : DspModule) (ta tb : Nat) : Option Nat × DspModule :=
  if !(s.net_exists ta) || !(s.net_exists tb) then (none, s)
  else
    let na := s.nets.getD ta junkNet
    let nb := s.nets.getD tb junkNet
    if na.inputs == 0 || nb.inputs == 0 then
      if !(Net.can_sum na nb) then (none, s)
      else
        let r := s.net_from (Net.sum na nb)
        (some r.1, r.2)
    else if !(Net.can_bus na nb) then (none, s)
    else
      let r := s.net_from (Net.bus na nb)
      (some r.1, r.2)

/-- `DspModule::net_pipe`. -/
def DspModule.net_pipe (s : DspModule) (ta tb : Nat) : Option Nat × DspModule :=
  if !(s.net_exists ta) || !(s.net_exists tb) then (none, s)
  else
    let na := s.nets.getD ta junkNet
    let nb := s.nets.getD tb junkNet
    if !(Net.can_pipe na nb) then (none, s)
    else
      let r := s.net_from (Net.pipe na nb)
      (some r.1, r.2)

/-- `DspModule::net_chain`: push an oscillator unit inside the target network
in place, returning the new internal node id. -/
def DspModule.net_chain (s : DspModule) (target : Nat) (t : NodeType) :
    Option Nat × DspModule :=
  if !(s.net_exists target) then (none, s)
  else
    let n := s.nets.getD target junkNet
    (some n.nodeCount, { s with nets := s.nets.set target (Net.chained n t) })

/-- `DspModule::net_commit`: only when the handle is valid and the network has
a real-time backend is `commit()` called on the slot; otherwise nothing
happens.  The function returns no value. -/
def DspModule.net_commit (s : DspModule) (target : Nat) : DspModule :=
  if s.net_exists target && (s.nets.getD target junkNet).hasBackend then
    { s with nets := s.nets.set target (Net.committedSnap (s.nets.getD target junkNet)) }
  else s

/-- The state-changing operations of the graph engine, for claims quantifying
over "every graph-engine operation". -/
inductive DspOp where
  | opSharedSet (name : String) (v : ℚ)
  | opNetFrom (n : Net)
  | opNetReplace (h : Nat) (n : Net)
  | opNetConstant (v : ℚ)
  | opNetProduct (a b : Nat)
  | opNetBus (a b : Nat)
  | opNetPipe (a b : Nat)
  | opNetChain (h : Nat) (t : NodeType)
  | opNetCommit (h : Nat)

/-- Apply a graph-engine operation to the module state; `none` is the one
panic path (`shared_set`'s `expect` on a missing recorded handle). -/
def DspOp.apply : DspOp → DspModule → Option DspModule
  | .opSharedSet name v, s => (s.shared_set name v).map (fun p => p.2)
  | .opNetFrom n, s => some (s.net_from n).2
  | .opNetReplace h n, s => some (s.net_replace h n).2
  | .opNetConstant v, s => some (s.net_constant v).2
  | .opNetProduct a b, s => some (s.net_product a b).2
  | .opNetBus a b, s => some (s.net_bus a b).2
  | .opNetPipe a b, s => some (s.net_pipe a b).2
  | .opNetChain h t, s => some (s.net_chain h t).2
  | .opNetCommit h, s => some (s.net_commit h)

/-- The frame property claimed for the binary combinators: operand slots (and
every other existing slot) are untouched, failure leaves the state unchanged,
and success appends exactly one new slot, whose handle is the old length. -/
def CombinatorFrame (s : DspModule) (out : Option Nat × DspModule) : Prop :=
  (∀ i, i < s.nets.length → out.2.nets[i]? = s.nets[i]?) ∧
  (out.1 = none → out.2 = s) ∧
  (∀ h, out.1 = some h →
     h = s.nets.length ∧ ∃ n, out.2.nets = s.nets ++ [n])

/-- Well-formedness of the shared store: every name with a value cell has a
recorded wrapping-network handle.  `DspModule::new` establishes it (both maps
start empty), the create path of `shared_set` inserts into both maps together,
and nothing ever removes an entry. -/
def SharedWf (s : DspModule) : Prop :=
  ∀ n : String, (s.shared.lookup n).isSome → (s.shared_to_net.lookup n).isSome

/-- One sequencer event as `play` pushes it:
`sequencer.push_relative(0.0, duration, Fade::Smooth, 0.01, 0.01, net)`.
Times are in seconds; the fixed fade-in/fade-out is 0.01 s. -/
structure SeqEvent where
  startTime : ℚ
  duration : ℚ
  fadeIn : ℚ
  fadeOut : ℚ
  net : Net
deriving DecidableEq, Repr

/-- State of the audio output module (`AudioModule` in
src/runner/audio/mod.rs): the nested graph engine, the `event_map` from an
event id's debug text to the id, the events pushed to the sequencer together
with the sequencer's fresh-id counter, and the release edits `stop` has
requested (`edit_relative(id, 0.01, 0.01)`). -/
structure AudioModule where
  dsp : DspModule
  eventMap : List (String × Nat)
  seqEvents : List (Nat × SeqEvent)
  nextEventId : Nat
  edits : List (Nat × ℚ × ℚ)
deriving DecidableEq, Repr

/-- `AudioModule::new`: fresh sequencer, empty event map, fresh graph engine. -/
def AudioModule.new : AudioModule := ⟨DspModule.new, [], [], 0, []⟩

/-- Debug rendering of a fundsp `EventId` (`format!("{:?}", event_id)`); this
text is what `play` returns to the script and what keys `event_map`. -/
def eventName (id : Nat) : String := "EventId(" ++ toString id ++ ")"

/-- The `play` arm of `AudioModule::handle_command`: an invalid handle yields
the sentinel `nil`; otherwise the network is pushed as a relative event with
the fixed 0.01 s fades, its name is recorded in the event map, and the name is
returned. -/
def AudioModule.play (s : AudioModule) (handle : Nat) (duration : ℚ) :
    String × AudioModule :=
  match s.dsp.get_net handle with
  | none => ("nil", s)
  | some net =>
      (eventName s.nextEventId,
       { s with
           seqEvents :=
             s.seqEvents ++ [(s.nextEventId, ⟨0, duration, 1/100, 1/100, net⟩)],
           eventMap := (eventName s.nextEventId, s.nextEventId) :: s.eventMap,
           nextEventId := s.nextEventId + 1 })

/-- The `stop` arm of `AudioModule::handle_command`: an unrecognised id yields
`false`; a recognised one has its release envelope requested and yields
`true`. -/
def AudioModule.stop (s : AudioModule) (eid : String) : String × AudioModule :=
  match s.eventMap.lookup eid with
  | none => ("false", s)
  | some id => ("true", { s with edits := s.edits ++ [(id, 1/100, 1/100)] })

/-- A script-visible audio operation, for claims quantified over every
sequence of earlier calls. -/
inductive AOp where
  | aplay (h : Nat) (d : ℚ)
  | astop (e : String)

/-- Run a sequence of play/stop calls. -/
def AudioModule.runOps : AudioModule → List AOp → AudioModule
  | s, [] => s
  | s, AOp.aplay h d :: r => AudioModule.runOps (s.play h d).2 r
  | s, AOp.astop e :: r => AudioModule.runOps (s.stop e).2 r

/-- The event ids returned by the successful `play` calls of a run. -/
def AudioModule.playOutputs : AudioModule → List AOp → List String
  | _, [] => []
  | s, AOp.aplay h d :: r =>
      (if (s.play h d).1 = "nil" then [] else [(s.play h d).1])
        ++ AudioModule.playOutputs (s.play h d).2 r
  | s, AOp.astop e :: r => AudioModule.playOutputs (s.stop e).2 r

/-- Kind of a scheduler callback (`CallbackType` in src/runner/timer/mod.rs). -/
inductive CbKind where
  | tick
  | beat
deriving DecidableEq, Repr

/-- Per-callback scheduler state.  The firing test (`time - call_time >= 0.0`)
and the advance of the stored fire time (`now + (60.0 / bpm) * call_freq`) are
`TimerModule::update` (src/runner/timer/mod.rs).  The callback table itself
lives in the script-side `timer.luau`, which is not among the repository's
staged files; following the spec (§4.5, §3), a callback carries an enabled
flag (a disabled callback is not invoked) and a beat callback starts with its
stored fire time at its phase offset (the Rust side reads the `time` field
with `unwrap_or(0.0)`, so an offset of 0 coincides with the code's default). -/
structure Callback where
  kind : CbKind
  enabled : Bool
  frequency : ℚ
  time : ℚ
deriving DecidableEq, Repr

/-- A fresh enabled beat callback with the given frequency multiplier and
phase offset. -/
def Callback.ofBeat (freq off : ℚ) : Callback := ⟨CbKind.beat, true, freq, off⟩

/-- A fresh enabled tick callback. -/
def Callback.ofTick : Callback := ⟨CbKind.tick, true, 1, 0⟩

/-- One `update(now)` pass over a single callback: the number of times its
function is invoked during this pass (0 or 1) and its new state.  A beat
callback fires when `now - time ≥ 0`, after which its stored fire time becomes
`now + (60 / bpm) * frequency`; a tick callback is invoked unconditionally;
a disabled callback is skipped. -/
def updateCallback (bpm now : ℚ) (cb : Callback) : Nat × Callback :=
  if cb.enabled = false then (0, cb)
  else
    match cb.kind with
    | CbKind.beat =>
        if now - cb.time ≥ 0 then
          (1, { cb with time := now + 60 / bpm * cb.frequency })
        else (0, cb)
    | CbKind.tick => (1, cb)

/-- `TimerModule::update` over the whole callback table: each entry is updated
independently; the result records per name how many invocations happened and
the new state. -/
def TimerModule.update (bpm now : ℚ) (cbs : List (String × Callback)) :
    List (String × Nat × Callback) :=
  cbs.map (fun p => (p.1, updateCallback bpm now p.2))

/-- The runner's two modules (src/runner/mod.rs): the one command module
(`AudioModule`) and the one polling module (`TimerModule`). -/
inductive RMod where
  | audioMod
  | timerMod
deriving DecidableEq, Repr

/-- The command-module array of `Runner`. -/
def commandModules : List RMod := [RMod.audioMod]

/-- The polling-module array of `Runner`. -/
def pollingModules : List RMod := [RMod.timerMod]

/-- The order the modules are constructed in `Runner::new`: the fields of the
struct literal are evaluated in source order, so `AudioModule::new()` (the
`command_modules` field) runs before `TimerModule::new()` (the
`polling_modules` field). -/
def constructionOrder : List RMod := [RMod.audioMod, RMod.timerMod]

/-- Observable events of one `Runner::run` call, in order. -/
inductive REvent where
  | evInit (m : RMod)
  | evBind (m : RMod)
  | evRunScript
  | evUpdate (m : RMod)
  | evPollUpdate (m : RMod)
  | evEnd (m : RMod)
deriving DecidableEq, Repr

/-- Events of one loop iteration of `Runner::run`: update every command
module, re-bind every command module's entry point, update every polling
module (then the stop flag is checked). -/
def iterTrace : List REvent :=
  commandModules.map REvent.evUpdate ++ commandModules.map REvent.evBind
    ++ pollingModules.map REvent.evPollUpdate

/-- Events of the initialisation phase of `Runner::run`: polling modules are
initialised, then each command module is initialised and bound (and its
post-init fragment run), then the user program runs once. -/
def startTrace : List REvent :=
  pollingModules.map REvent.evInit ++ commandModules.map REvent.evInit
    ++ commandModules.map REvent.evBind ++ [REvent.evRunScript]

/-- Events of the teardown phase of `Runner::run`: `end` on every polling
module, then on every command module. -/
def endTrace : List REvent :=
  pollingModules.map REvent.evEnd ++ commandModules.map REvent.evEnd

/-- The `loop` of `Runner::run`.  `flags i` is the value the script-visible
stop flag (`EndSong`, read with `unwrap_or(false)`) has when iteration `i`
checks it; the flag can only change while script code runs, i.e. through the
callbacks fired by the polling update earlier in the same iteration or before
the loop.  `fuel` bounds how many iterations we unroll; `none` means the loop
did not stop within the bound. -/
def runLoop (flags : Nat → Bool) : Nat → Nat → Option (List REvent)
  | 0, _ => none
  | fuel + 1, i =>
      if flags i then some iterTrace
      else (runLoop flags fuel (i + 1)).map (fun t => iterTrace ++ t)

/-- `Runner::run`: initialisation, the loop, then teardown. -/
def runnerRun (flags : Nat → Bool) (fuel : Nat) : Option (List REvent) :=
  (runLoop flags fuel 0).map (fun l => startTrace ++ l ++ endTrace)

/-- The modules a trace calls `end` on, in order. -/
def endsOf (t : List REvent) : List RMod :=
  t.filterMap (fun e =>
    match e with
    | REvent.evEnd m => some m
    | _ => none)

/-- Rust `arg.split(';')`: split the character list on the delimiter (always
at least one token, tokens may be empty). -/
def tokenize (s : String) : List String :=
  (s.data.splitOn ';').map (fun cs => String.mk cs)

/-- Join tokens with the `;` delimiter — how the grammar's command strings are
formed from their fields. -/
def joinTokens (ts : List String) : String :=
  String.mk (List.intercalate [';'] (ts.map String.data))

/-- A token with no delimiter in it (every name/argument field of a
grammar-conforming command). -/
def noSemi (t : String) : Prop := ';' ∉ t.data

/-- Value of a decimal digit character. -/
def digitVal (c : Char) : Option Nat :=
  if c.isDigit then some (c.toNat - 48) else none

/-- Value of a nonempty string of decimal digits. -/
def decNat : List Char → Option Nat
  | [] => none
  | cs => cs.foldlM (fun acc c => (digitVal c).map (fun d => acc * 10 + d)) 0

/-- Parse of a plain decimal literal (optional sign, integer digits, optional
`.` and fraction digits) as an exact rational.  This is the `<float>` form the
command grammar uses; Rust's `f32` parser accepts further forms (exponents,
`inf`, ...) that no grammar-conforming command contains, and the claims only
quantify over grammar-conforming strings. -/
def parseFloatQ (s : String) : Option ℚ :=
  let core : List Char → Option ℚ := fun cs =>
    match cs.splitOn '.' with
    | [ip] => (decNat ip).map (fun n => (n : ℚ))
    | [ip, fp] =>
        match decNat ip, decNat fp with
        | some n, some f => some ((n : ℚ) + (f : ℚ) / (10 : ℚ) ^ fp.length)
        | _, _ => none
    | _ => none
  match s.data with
  | '-' :: r => (core r).map (fun q => -q)
  | '+' :: r => core r
  | r => core r

/-- Integer part of a nonnegative rational. -/
def ratFloorNat (q : ℚ) : Nat := q.num.toNat / q.den

/-- Digits of a fractional part, by repeated multiplication by ten; the fuel
bounds the printed length. -/
def fracDigits : Nat → ℚ → String
  | 0, _ => ""
  | fuel + 1, q =>
      if q = 0 then ""
      else
        toString (ratFloorNat (q * 10))
          ++ fracDigits fuel (q * 10 - (ratFloorNat (q * 10) : ℚ))

/-- Decimal rendering of a rational, modelling Rust's `to_string` of the
stored float (integral values print without a fraction part, as Rust's
does). -/
def ratToDecString (q : ℚ) : String :=
  (if q < 0 then "-" else "")
    ++ (if |q| - (ratFloorNat |q| : ℚ) = 0 then toString (ratFloorNat |q|)
        else toString (ratFloorNat |q|) ++ "."
          ++ fracDigits 64 (|q| - (ratFloorNat |q| : ℚ)))

/-- `DspModule::command` after the split: token 0 selects the operation.
`none` models the Rust panics — a missing token, an argument that fails to
parse, an unrecognised operation name, and `shared_set`'s missing-handle
`expect`.  The `net_commit` arm returns no value, so the dispatcher's trailing
`return "nil"` supplies the result. -/
def DspModule.commandTokens (s : DspModule) : List String → Option (String × DspModule)
  | [] => none
  | cmd :: rest =>
    if cmd = "shared_exists" then
      match rest[0]? with
      | some name => some (toString (s.shared_exists name), s)
      | none => none
    else if cmd = "shared_set" then
      match rest[0]?, rest[1]? with
      | some name, some vTok =>
          match parseFloatQ vTok with
          | some v =>
              match s.shared_set name v with
              | some (id, s') => some (toString id, s')
              | none => none
          | none => none
      | _, _ => none
    else if cmd = "shared_get" then
      match rest[0]? with
      | some name => some ((s.shared_get name).elim "nil" ratToDecString, s)
      | none => none
    else if cmd = "shared_get_net" then
      match rest[0]? with
      | some name => some ((s.shared_get_net name).elim "nil" toString, s)
      | none => none
    else if cmd = "net_exists" then
      match rest[0]? with
      | some tok =>
          match tok.toNat? with
          | some id => some (toString (s.net_exists id), s)
          | none => none
      | none => none
    else if cmd = "net_clone" then
      match rest[0]? with
      | some tok =>
          match tok.toNat? with
          | some id =>
              if s.net_exists id then
                some (toString (s.net_from (s.nets.getD id junkNet)).1,
                      (s.net_from (s.nets.getD id junkNet)).2)
              else some ("nil", s)
          | none => none
      | none => none
    else if cmd = "net_constant" then
      match rest[0]? with
      | some tok =>
          match parseFloatQ tok with
          | some v => some (toString (s.net_constant v).1, (s.net_constant v).2)
          | none => none
      | none => none
    else if cmd = "net_vector_length" then
      some (toString s.net_vector_length, s)
    else if cmd = "net_default" then
      match rest[0]? with
      | some tok =>
          if tok = "hammond" then some (toString NodeType.hammond.as_net_id, s)
          else if tok = "organ" then some (toString NodeType.organ.as_net_id, s)
          else if tok = "saw" then some (toString NodeType.saw.as_net_id, s)
          else if tok = "sine" then some (toString NodeType.sine.as_net_id, s)
          else if tok = "softsaw" then some (toString NodeType.softSaw.as_net_id, s)
          else if tok = "square" then some (toString NodeType.square.as_net_id, s)
          else if tok = "triangle" then some (toString NodeType.triangle.as_net_id, s)
          else some ("nil", s)
      | none => none
    else if cmd = "net_product" then
      match rest[0]?, rest[1]? with
      | some tokA, some tokB =>
          match tokA.toNat?, tokB.toNat? with
          | some a, some b =>
              match s.net_product a b with
              | (some id, s') => some (toString id, s')
              | (none, s') => some ("nil", s')
          | _, _ => none
      | _, _ => none
    else if cmd = "net_bus" then
      match rest[0]?, rest[1]? with
      | some tokA, some tokB =>
          match tokA.toNat?, tokB.toNat? with
          | some a, some b =>
              match s.net_bus a b with
              | (some id, s') => some (toString id, s')
              | (none, s') => some ("nil", s')
          | _, _ => none
      | _, _ => none
    else if cmd = "net_pipe" then
      match rest[0]?, rest[1]? with
      | some tokA, some tokB =>
          match tokA.toNat?, tokB.toNat? with
          | some a, some b =>
              match s.net_pipe a b with
              | (some id, s') => some (toString id, s')
              | (none, s') => some ("nil", s')
          | _, _ => none
      | _, _ => none
    else if cmd = "net_commit" then
      match rest[0]? with
      | some tok =>
          match tok.toNat? with
          | some id => some ("nil", s.net_commit id)
          | none => none
      | none => none
    else none

/-- `DspModule::command`: split the argument on `;` and dispatch on token 0. -/
def DspModule.command (s : DspModule) (arg : String) : Option (String × DspModule) :=
  s.commandTokens (tokenize arg)

/-- `AudioModule::handle_command` after the split: the `play` and `stop`
operations; anything else panics. -/
def AudioModule.handleTokens (s : AudioModule) : List String → Option (String × AudioModule)
  | [] => none
  | cmd :: rest =>
    if cmd = "play" then
      match rest[0]?, rest[1]? with
      | some hTok, some dTok =>
          match hTok.toNat?, parseFloatQ dTok with
          | some h, some d => some (s.play h d)
          | _, _ => none
      | _, _ => none
    else if cmd = "stop" then
      match rest[0]? with
      | some eTok => some (s.stop eTok)
      | none => none
    else none

/-- `AudioModule::command` — the one command entry point the runner registers
(as the lua global `_audio_command_handler`).  Token 0 `dsp` forwards the rest
of the argument to the nested `DspModule::command` (the Rust strips the `dsp;`
prefix and the inner dispatcher re-splits the remainder, which on the token
level is passing the tail of the split; when the argument is exactly `dsp` the
strip's `expect` panics, matching the inner dispatch of the empty token list
here); token 0 `audio` forwards to `handle_command`; any other token 0
panics. -/
def AudioModule.command (s : AudioModule) (arg : String) : Option (String × AudioModule) :=
  match tokenize arg with
  | [] => none
  | cmd :: rest =>
      if cmd = "dsp" then
        match s.dsp.commandTokens rest with
        | some (r, d') => some (r, { s with dsp := d' })
        | none => none
      else if cmd = "audio" then s.handleTokens rest
      else none

/-- The grammar's names of the seven built-in oscillators
(`net_default;<osc-name>`). -/
def oscName : NodeType → String
  | .hammond => "hammond"
  | .organ => "organ"
  | .saw => "saw"
  | .sine => "sine"
  | .softSaw => "softsaw"
  | .square => "square"
  | .triangle => "triangle"

/-! Theorems for the claims. -/

/-- Looking a key up right after consing it finds the new value. -/
theorem lookup_cons_self {β : Type} (name : String) (v : β)
    (l : List (String × β)) : ((name, v) :: l).lookup name = some v := by
  simp [List.lookup]

/-- Looking up the updated name after an in-place cell update yields the new
value exactly when the name was present. -/
theorem lookup_setCell (name : String) (v : ℚ) (l : List (String × ℚ)) :
    (setCell name v l).lookup name = (l.lookup name).map (fun _ => v) := by
  induction l with
  | nil => rfl
  | cons p r ih =>
    obtain ⟨n, w⟩ := p
    by_cases hn : n = name
    · subst hn
      simp [setCell, List.lookup]
    · have hb : (name == n) = false := by
        simp [Ne.symm hn]
      simp [setCell, hn, List.lookup, hb, ih]

/-- Both those of the three combinators' outcomes: failure with the state
unchanged, or a fresh slot appended through `net_from`. -/
theorem net_product_outcome (s : DspModule) (a b : Nat) :
    s.net_product a b = (none, s) ∨
    ∃ n, s.net_product a b = (some s.nets.length, { s with nets := s.nets ++ [n] }) := by
  simp only [DspModule.net_product, DspModule.net_from]
  split_ifs <;> first
    | exact Or.inl rfl
    | exact Or.inr ⟨_, rfl⟩

/-- Outcome shape of `net_bus`. -/
theorem net_bus_outcome (s : DspModule) (a b : Nat) :
    s.net_bus a b = (none, s) ∨
    ∃ n, s.net_bus a b = (some s.nets.length, { s with nets := s.nets ++ [n] }) := by
  simp only [DspModule.net_bus, DspModule.net_from]
  split_ifs <;> first
    | exact Or.inl rfl
    | exact Or.inr ⟨_, rfl⟩

/-- Outcome shape of `net_pipe`. -/
theorem net_pipe_outcome (s : DspModule) (a b : Nat) :
    s.net_pipe a b = (none, s) ∨
    ∃ n, s.net_pipe a b = (some s.nets.length, { s with nets := s.nets ++ [n] }) := by
  simp only [DspModule.net_pipe, DspModule.net_from]
  split_ifs <;> first
    | exact Or.inl rfl
    | exact Or.inr ⟨_, rfl⟩

/-- An outcome of the failure-or-append shape satisfies the frame property. -/
theorem outcome_combinatorFrame (s : DspModule) (out : Option Nat × DspModule)
    (h : out = (none, s) ∨
      ∃ n, out = (some s.nets.length, { s with nets := s.nets ++ [n] })) :
    CombinatorFrame s out := by
  rcases h with h | ⟨n, h⟩ <;> subst h
  · exact ⟨fun i _ => rfl, fun _ => rfl, fun h hh => by cases hh⟩
  · refine ⟨?_, ?_, ?_⟩
    · intro i hi
      simp [List.getElem?_append_left hi]
    · intro hc
      cases hc
    · intro h hh
      cases hh
      exact ⟨rfl, n, rfl⟩

/-- The nets an application of `shared_set` can leave behind: one appended
`var` wrapper on the create path, nothing on the update path. -/
theorem shared_set_nets_cases (s : DspModule) (name : String) (v : ℚ)
    (p : Nat × DspModule) (h : s.shared_set name v = some p) :
    p.2.nets = s.nets ++ [Net.var name] ∨ p.2.nets = s.nets := by
  unfold DspModule.shared_set at h
  split at h
  · simp only [DspModule.net_from] at h
    cases h
    exact Or.inl rfl
  · split at h
    · cases h
    · cases h
      exact Or.inr rfl

/-- `net_replace` never changes the arena length. -/
theorem net_replace_length (s : DspModule) (h : Nat) (n : Net) :
    (s.net_replace h n).2.nets.length = s.nets.length := by
  unfold DspModule.net_replace
  split_ifs <;> simp

/-- `net_chain` never changes the arena length. -/
theorem net_chain_length (s : DspModule) (h : Nat) (t : NodeType) :
    (s.net_chain h t).2.nets.length = s.nets.length := by
  simp only [DspModule.net_chain]
  split_ifs <;> simp

/-- `net_commit` never changes the arena length. -/
theorem net_commit_length (s : DspModule) (h : Nat) :
    (s.net_commit h).nets.length = s.nets.length := by
  unfold DspModule.net_commit
  split_ifs <;> simp

/-- C1: for every pair of valid arena handles `a` and `b` such that at least
one of the two referenced networks has zero inputs, `net_bus(a,b)` produces a
result observationally equal to the summation of the two operand networks —
the outcome is exactly the sum path's outcome, and the slot it may append
holds `Net.sum`, so the structural bus combinator is never applied. -/
theorem C1_net_bus_zero_input_degrades_to_sum (s : DspModule) (a b : Nat)
    (na nb : Net) (hna : s.nets[a]? = some na) (hnb : s.nets[b]? = some nb)
    (hz : na.inputs = 0 ∨ nb.inputs = 0) :
    s.net_bus a b =
      (if Net.can_sum na nb
       then (some s.nets.length, { s with nets := s.nets ++ [Net.sum na nb] })
       else (none, s)) ∧
    ∀ n ∈ (s.net_bus a b).2.nets, n ∈ s.nets ∨ n.isBus = false := by
  have hla : a < s.nets.length := (List.getElem?_eq_some.mp hna).1
  have hlb : b < s.nets.length := (List.getElem?_eq_some.mp hnb).1
  have hea : s.net_exists a = true := by
    simp [DspModule.net_exists, hla]
  have heb : s.net_exists b = true := by
    simp [DspModule.net_exists, hlb]
  have hzb : (na.inputs == 0 || nb.inputs == 0) = true := by
    rcases hz with hz | hz <;> simp [hz]
  have hmain : s.net_bus a b =
      (if Net.can_sum na nb
       then (some s.nets.length, { s with nets := s.nets ++ [Net.sum na nb] })
       else (none, s)) := by
    by_cases hcs : Net.can_sum na nb
    · simp [DspModule.net_bus, hea, heb, List.getD_eq_getElem?_getD, hna, hnb,
        hzb, hcs, DspModule.net_from]
    · simp [DspModule.net_bus, hea, heb, List.getD_eq_getElem?_getD, hna, hnb,
        hzb, hcs]
  refine ⟨hmain, ?_⟩
  rw [hmain]
  by_cases hcs : Net.can_sum na nb
  · simp only [hcs, if_true]
    intro n hn
    rcases List.mem_append.mp hn with hn | hn
    · exact Or.inl hn
    · simp only [List.mem_singleton] at hn
      subst hn
      exact Or.inr rfl
  · simp only [hcs, if_false]
    exact fun n hn => Or.inl hn

/-- Witness for C1 at a concrete input: the arena after `net_constant 2` holds
the constant at handle 7; busing it against the sine oscillator (handle 3)
takes the sum path. -/
theorem C1_net_bus_zero_input_degrades_to_sum_witness :
    (DspModule.new.net_constant 2).2.net_bus 7 3 =
      (if Net.can_sum (Net.constant 2) (Net.osc .sine)
       then (some (DspModule.new.net_constant 2).2.nets.length,
             { (DspModule.new.net_constant 2).2 with
                 nets := (DspModule.new.net_constant 2).2.nets
                   ++ [Net.sum (Net.constant 2) (Net.osc .sine)] })
       else (none, (DspModule.new.net_constant 2).2)) ∧
    ∀ n ∈ ((DspModule.new.net_constant 2).2.net_bus 7 3).2.nets,
      n ∈ (DspModule.new.net_constant 2).2.nets ∨ n.isBus = false :=
  C1_net_bus_zero_input_degrades_to_sum _ 7 3 _ _ (by rfl) (by rfl) (Or.inl rfl)

/-- C6: `net_replace(h, n)` on a valid handle returns `h`, overwrites slot `h`
in place and leaves the arena length unchanged; on an invalid handle it
returns no result and leaves the whole state (every slot and the length)
unchanged. -/
theorem C6_net_replace_spec (s : DspModule) (h : Nat) (n : Net) :
    (h < s.nets.length →
       s.net_replace h n = (some h, { s with nets := s.nets.set h n }) ∧
       (s.net_replace h n).2.nets.length = s.nets.length ∧
       (∀ i, i ≠ h → (s.net_replace h n).2.nets[i]? = s.nets[i]?) ∧
       (s.net_replace h n).2.nets[h]? = some n) ∧
    (¬ h < s.nets.length → s.net_replace h n = (none, s)) := by
  constructor
  · intro hh
    have hex : s.net_exists h = true := by
      simp [DspModule.net_exists, hh]
    refine ⟨?_, ?_, ?_, ?_⟩
    · simp [DspModule.net_replace, hex]
    · simp [DspModule.net_replace, hex]
    · intro i hi
      simp [DspModule.net_replace, hex, List.getElem?_set, Ne.symm hi]
    · simp [DspModule.net_replace, hex, List.getElem?_set, hh]
  · intro hh
    simp [DspModule.net_replace, DspModule.net_exists, hh]

/-- Witness for C6 at a concrete input: replacing slot 0 of the fresh arena. -/
theorem C6_net_replace_spec_witness :
    (0 < DspModule.new.nets.length →
       DspModule.new.net_replace 0 (Net.constant 1) =
         (some 0, { DspModule.new with nets := DspModule.new.nets.set 0 (Net.constant 1) }) ∧
       (DspModule.new.net_replace 0 (Net.constant 1)).2.nets.length =
         DspModule.new.nets.length ∧
       (∀ i, i ≠ 0 →
         (DspModule.new.net_replace 0 (Net.constant 1)).2.nets[i]? =
           DspModule.new.nets[i]?) ∧
       (DspModule.new.net_replace 0 (Net.constant 1)).2.nets[0]? =
         some (Net.constant 1)) ∧
    (¬ 0 < DspModule.new.nets.length →
       DspModule.new.net_replace 0 (Net.constant 1) = (none, DspModule.new)) :=
  C6_net_replace_spec DspModule.new 0 (Net.constant 1)

/-- C8: `net_product(a, b)` fails — returns no result and leaves the state
unchanged — whenever the network at `b` has nonzero input arity, regardless of
what `a` refers to. -/
theorem C8_net_product_fails_on_inputful_b (s : DspModule) (a b : Nat)
    (nb : Net) (hnb : s.nets[b]? = some nb) (hz : nb.inputs ≠ 0) :
    s.net_product a b = (none, s) := by
  by_cases hva : s.net_exists a = true
  · simp [DspModule.net_product, hva, List.getD_eq_getElem?_getD, hnb, hz]
  · simp [DspModule.net_product, hva]

/-- Witness for C8 at a concrete input: handle 0 (the Hammond oscillator) has
one input, so any product with it on the right fails on the fresh arena. -/
theorem C8_net_product_fails_on_inputful_b_witness :
    DspModule.new.net_product 0 0 = (none, DspModule.new) :=
  C8_net_product_fails_on_inputful_b DspModule.new 0 0 (Net.osc .hammond)
    (by rfl) (by decide)

/-- C10: `net_commit` is total on bad input — called with an out-of-range
handle, or with a handle whose network has no real-time backend, it does not
abort (it is a total function with no panic path), returns no value, and
leaves the arena length and every slot unchanged (the whole state is
unchanged). -/
theorem C10_net_commit_bad_input_is_noop (s : DspModule) (h : Nat)
    (hbad : ¬ h < s.nets.length ∨ (s.nets.getD h junkNet).hasBackend = false) :
    s.net_commit h = s := by
  rcases hbad with hb | hb
  · simp [DspModule.net_commit, DspModule.net_exists, hb]
  · have hb' : (s.nets[h]?.getD junkNet).hasBackend = false := by
      rw [← List.getD_eq_getElem?_getD]
      exact hb
    simp [DspModule.net_commit, List.getD_eq_getElem?_getD, hb']

/-- Witness for C10 at a concrete input: handle 0 of the fresh arena holds the
Hammond oscillator, which has no backend. -/
theorem C10_net_commit_bad_input_is_noop_witness :
    DspModule.new.net_commit 0 = DspModule.new :=
  C10_net_commit_bad_input_is_noop DspModule.new 0 (Or.inr (by rfl))

/-- C9: `net_product`, `net_bus` and `net_pipe` never modify their operand
slots (or any other existing slot); on success each appends exactly one new
slot holding the result, so the arena length grows by exactly one; on failure
the state is unchanged; and no graph-engine operation ever shrinks the arena
or invalidates a previously valid handle. -/
theorem C9_combinators_pure_arena_grows :
    (∀ s a b, CombinatorFrame s (s.net_product a b)) ∧
    (∀ s a b, CombinatorFrame s (s.net_bus a b)) ∧
    (∀ s a b, CombinatorFrame s (s.net_pipe a b)) ∧
    (∀ op s s', DspOp.apply op s = some s' →
       s.nets.length ≤ s'.nets.length ∧
       ∀ h, s.net_exists h = true → s'.net_exists h = true) := by
  refine ⟨?_, ?_, ?_, ?_⟩
  · intro s a b
    exact outcome_combinatorFrame _ _ (net_product_outcome s a b)
  · intro s a b
    exact outcome_combinatorFrame _ _ (net_bus_outcome s a b)
  · intro s a b
    exact outcome_combinatorFrame _ _ (net_pipe_outcome s a b)
  · intro op s s' happ
    have hlen : s.nets.length ≤ s'.nets.length := by
      cases op with
      | opSharedSet name v =>
          simp only [DspOp.apply] at happ
          rcases Option.map_eq_some'.mp happ with ⟨p, hp, hps⟩
          rcases shared_set_nets_cases s name v p hp with h | h <;>
            simp [← hps, h]
      | opNetFrom n =>
          simp only [DspOp.apply] at happ
          cases happ
          simp [DspModule.net_from]
      | opNetReplace h n =>
          simp only [DspOp.apply] at happ
          cases happ
          rw [net_replace_length]
      | opNetConstant v =>
          simp only [DspOp.apply] at happ
          cases happ
          simp [DspModule.net_constant, DspModule.net_from]
      | opNetProduct a b =>
          simp only [DspOp.apply] at happ
          cases happ
          rcases net_product_outcome s a b with h | ⟨n, h⟩ <;> simp [h]
      | opNetBus a b =>
          simp only [DspOp.apply] at happ
          cases happ
          rcases net_bus_outcome s a b with h | ⟨n, h⟩ <;> simp [h]
      | opNetPipe a b =>
          simp only [DspOp.apply] at happ
          cases happ
          rcases net_pipe_outcome s a b with h | ⟨n, h⟩ <;> simp [h]
      | opNetChain h t =>
          simp only [DspOp.apply] at happ
          cases happ
          rw [net_chain_length]
      | opNetCommit h =>
          simp only [DspOp.apply] at happ
          cases happ
          rw [net_commit_length]
    refine ⟨hlen, ?_⟩
    intro h hh
    simp only [DspModule.net_exists, decide_eq_true_eq] at hh ⊢
    omega

/-- C7: setting a parameter twice and reading it back yields the second value;
both `shared_set` calls return the identical backing handle; the wrapping
network handle is allocated only on the first set of an unseen name (the arena
grows by the one `var` wrapper exactly then), and that same handle is returned
by all later `shared_set` and `shared_get_net` calls for the name. -/
theorem C7_shared_set_handle_stable (s : DspModule) (name : String) (v1 v2 : ℚ)
    (hwf : SharedWf s) :
    ∃ h s1 s2,
      s.shared_set name v1 = some (h, s1) ∧
      s1.shared_set name v2 = some (h, s2) ∧
      s2.shared_get name = some v2 ∧
      s2.shared_get_net name = some h ∧
      s2.nets = s1.nets ∧
      (s.shared_exists name = false →
         h = s.nets.length ∧ s1.nets = s.nets ++ [Net.var name]) ∧
      (s.shared_exists name = true → s1.nets = s.nets) ∧
      (∀ v3, ∃ s3, s2.shared_set name v3 = some (h, s3)) := by
  cases hl : s.shared.lookup name with
  | none =>
      refine ⟨s.nets.length,
        ⟨s.nets ++ [Net.var name], (name, v1) :: s.shared,
          (name, s.nets.length) :: s.shared_to_net⟩,
        ⟨s.nets ++ [Net.var name], (name, v2) :: s.shared,
          (name, s.nets.length) :: s.shared_to_net⟩,
        ?_, ?_, ?_, ?_, rfl, ?_, ?_, ?_⟩
      · simp [DspModule.shared_set, hl, DspModule.net_from]
      · simp [DspModule.shared_set, List.lookup, setCell]
      · simp [DspModule.shared_get, List.lookup]
      · simp [DspModule.shared_get_net, List.lookup]
      · intro _
        exact ⟨rfl, rfl⟩
      · intro hex
        rw [DspModule.shared_exists, hl] at hex
        simp at hex
      · intro v3
        exact ⟨⟨s.nets ++ [Net.var name], (name, v3) :: s.shared,
          (name, s.nets.length) :: s.shared_to_net⟩,
          by simp [DspModule.shared_set, List.lookup, setCell]⟩
  | some w =>
      have hn : (s.shared_to_net.lookup name).isSome := hwf name (by simp [hl])
      rcases Option.isSome_iff_exists.mp hn with ⟨id, hid⟩
      have h1 : (setCell name v1 s.shared).lookup name = some v1 := by
        rw [lookup_setCell, hl]
        rfl
      have h2 : (setCell name v2 (setCell name v1 s.shared)).lookup name = some v2 := by
        rw [lookup_setCell, lookup_setCell, hl]
        rfl
      refine ⟨id, { s with shared := setCell name v1 s.shared },
        { s with shared := setCell name v2 (setCell name v1 s.shared) },
        ?_, ?_, ?_, ?_, rfl, ?_, ?_, ?_⟩
      · simp [DspModule.shared_set, hl, hid]
      · simp [DspModule.shared_set, h1, hid]
      · simp [DspModule.shared_get, h2]
      · simp [DspModule.shared_get_net, hid]
      · intro hex
        rw [DspModule.shared_exists, hl] at hex
        simp at hex
      · intro _
        rfl
      · intro v3
        exact ⟨{ s with shared := setCell name v3 (setCell name v2 (setCell name v1 s.shared)) },
          by simp [DspModule.shared_set, h2, hid]⟩

/-- Witness for C7 at a concrete input: a fresh module (its shared store is
empty, so well-formedness holds trivially), name "freq", values 1 then 2. -/
theorem C7_shared_set_handle_stable_witness :
    ∃ h s1 s2,
      DspModule.new.shared_set "freq" 1 = some (h, s1) ∧
      s1.shared_set "freq" 2 = some (h, s2) ∧
      s2.shared_get "freq" = some 2 ∧
      s2.shared_get_net "freq" = some h ∧
      s2.nets = s1.nets ∧
      (DspModule.new.shared_exists "freq" = false →
         h = DspModule.new.nets.length ∧
         s1.nets = DspModule.new.nets ++ [Net.var "freq"]) ∧
      (DspModule.new.shared_exists "freq" = true → s1.nets = DspModule.new.nets) ∧
      (∀ v3, ∃ s3, s2.shared_set "freq" v3 = some (h, s3)) :=
  C7_shared_set_handle_stable DspModule.new "freq" 1 2 (by
    intro n hx
    simp [DspModule.new] at hx)

/-- Lookup succeeds exactly on stored keys. -/
theorem lookup_isSome_iff_mem_keys {β : Type} (l : List (String × β)) (k : String) :
    (l.lookup k).isSome = true ↔ k ∈ l.map Prod.fst := by
  induction l with
  | nil => simp [List.lookup]
  | cons p r ih =>
    obtain ⟨n, v⟩ := p
    by_cases hk : k = n
    · subst hk
      simp [List.lookup]
    · have hb : (k == n) = false := by
        simp [hk]
      simp only [List.lookup, hb, List.map_cons, List.mem_cons]
      rw [ih]
      simp [hk]

/-- An event name is never the failure sentinel. -/
theorem eventName_ne_nil (id : Nat) : eventName id ≠ "nil" := by
  intro h
  have h2 := congrArg String.length h
  have e1 : ("EventId(" : String).length = 8 := rfl
  have e2 : (")" : String).length = 1 := rfl
  have e3 : ("nil" : String).length = 3 := rfl
  rw [eventName, String.length_append, String.length_append, e1, e2, e3] at h2
  omega

/-- `get_net` fails exactly on invalid handles. -/
theorem get_net_none_iff (s : DspModule) (h : Nat) :
    s.get_net h = none ↔ s.net_exists h = false := by
  by_cases hx : s.net_exists h = true
  · have hlt : h < s.nets.length := by
      simpa [DspModule.net_exists] using hx
    simp [DspModule.get_net, hx, List.getElem?_eq_getElem hlt]
  · rw [Bool.not_eq_true] at hx
    simp [DspModule.get_net, hx]

/-- `stop` never changes the event map. -/
theorem stop_eventMap (s : AudioModule) (e : String) :
    (s.stop e).2.eventMap = s.eventMap := by
  unfold AudioModule.stop
  cases s.eventMap.lookup e <;> rfl

/-- `stop` answers `true` exactly when the id is a key of the event map. -/
theorem stop_true_iff (s : AudioModule) (e : String) :
    (s.stop e).1 = "true" ↔ (s.eventMap.lookup e).isSome = true := by
  unfold AudioModule.stop
  cases s.eventMap.lookup e <;> simp

/-- `stop` answers `false` exactly when the id is not a key of the event
map. -/
theorem stop_false_iff (s : AudioModule) (e : String) :
    (s.stop e).1 = "false" ↔ ¬ (s.eventMap.lookup e).isSome = true := by
  unfold AudioModule.stop
  cases s.eventMap.lookup e <;> simp

/-- During a run, the keys of the event map are exactly the ids returned by
the successful plays, plus whatever was there to start with. -/
theorem mem_eventMap_runOps (ops : List AOp) (s : AudioModule) (e : String) :
    e ∈ (AudioModule.runOps s ops).eventMap.map Prod.fst ↔
      e ∈ AudioModule.playOutputs s ops ∨ e ∈ s.eventMap.map Prod.fst := by
  induction ops generalizing s with
  | nil => simp [AudioModule.runOps, AudioModule.playOutputs]
  | cons op r ih =>
    cases op with
    | aplay h d =>
        cases hg : s.dsp.get_net h with
        | none =>
            have hp : s.play h d = ("nil", s) := by
              simp [AudioModule.play, hg]
            simp [AudioModule.runOps, AudioModule.playOutputs, hp, ih]
        | some net =>
            have hp1 : (s.play h d).1 = eventName s.nextEventId := by
              simp [AudioModule.play, hg]
            have hp2 : (s.play h d).2.eventMap
                = (eventName s.nextEventId, s.nextEventId) :: s.eventMap := by
              simp [AudioModule.play, hg]
            have hout : AudioModule.playOutputs s (AOp.aplay h d :: r)
                = eventName s.nextEventId :: AudioModule.playOutputs (s.play h d).2 r := by
              simp only [AudioModule.playOutputs, hp1]
              rw [if_neg (eventName_ne_nil _)]
              rfl
            rw [show AudioModule.runOps s (AOp.aplay h d :: r)
                  = AudioModule.runOps (s.play h d).2 r from rfl,
              ih ((s.play h d).2), hout, hp2]
            simp only [List.map_cons, List.mem_cons]
            tauto
    | astop x =>
        simp only [AudioModule.runOps, AudioModule.playOutputs, ih,
          stop_eventMap]

/-- C5: `play(handle, duration)` returns the sentinel `nil` iff `handle` is
not a valid arena handle; otherwise it inserts a timed event with the fixed
0.01 s fade-in/fade-out and returns an opaque event id recorded in the event
map.  After any sequence of play/stop calls from a fresh module, `stop(e)`
returns `true` iff `e` was returned by some earlier (successful) `play` call,
and `false` otherwise. -/
theorem C5_play_stop_correct (ops : List AOp) (h : Nat) (d : ℚ) (e : String) :
    (∀ s : AudioModule,
       ((s.play h d).1 = "nil" ↔ s.dsp.net_exists h = false) ∧
       (∀ net, s.dsp.get_net h = some net →
          (s.play h d).1 = eventName s.nextEventId ∧
          (s.play h d).2.seqEvents
            = s.seqEvents ++ [(s.nextEventId, ⟨0, d, 1/100, 1/100, net⟩)] ∧
          (s.play h d).2.eventMap
            = ((s.play h d).1, s.nextEventId) :: s.eventMap)) ∧
    (((AudioModule.runOps AudioModule.new ops).stop e).1 = "true"
        ↔ e ∈ AudioModule.playOutputs AudioModule.new ops) ∧
    (((AudioModule.runOps AudioModule.new ops).stop e).1 = "false"
        ↔ ¬ e ∈ AudioModule.playOutputs AudioModule.new ops) := by
  have hmem : ∀ e' : String,
      ((AudioModule.runOps AudioModule.new ops).eventMap.lookup e').isSome = true
        ↔ e' ∈ AudioModule.playOutputs AudioModule.new ops := by
    intro e'
    rw [lookup_isSome_iff_mem_keys, mem_eventMap_runOps]
    simp [AudioModule.new]
  refine ⟨?_, ?_, ?_⟩
  · intro s
    constructor
    · cases hg : s.dsp.get_net h with
      | none =>
          have hx := (get_net_none_iff s.dsp h).mp hg
          simp [AudioModule.play, hg, hx]
      | some net =>
          have hx : ¬ s.dsp.net_exists h = false := by
            intro hf
            rw [← get_net_none_iff, hg] at hf
            cases hf
          simp [AudioModule.play, hg, eventName_ne_nil, hx]
    · intro net hg
      refine ⟨?_, ?_, ?_⟩ <;> simp [AudioModule.play, hg]
  · rw [stop_true_iff, hmem]
  · rw [stop_false_iff, hmem]

/-- C2: at tempo 60 BPM with an enabled beat callback of frequency multiplier
1 and offset 0, `update(0.0)` invokes it once, `update(0.5)` does not,
`update(1.0)` invokes it a second time, and after each firing the stored next
fire time is the firing instant plus one beat period (`60/BPM` times the
multiplier); a long pause (here `update(100.0)` on a fresh callback, 100
missed periods) still produces exactly one invocation, and every callback is
invoked at most once per update pass; an enabled tick callback is invoked
exactly once per update pass regardless of the elapsed delta. -/
theorem C2_timer_beat_tick_behaviour :
    ((updateCallback 60 0 (Callback.ofBeat 1 0)).1 = 1 ∧
     (updateCallback 60 0 (Callback.ofBeat 1 0)).2.time = 1 ∧
     (updateCallback 60 (1/2) (updateCallback 60 0 (Callback.ofBeat 1 0)).2).1 = 0 ∧
     (updateCallback 60 1
        (updateCallback 60 (1/2) (updateCallback 60 0 (Callback.ofBeat 1 0)).2).2).1 = 1 ∧
     (updateCallback 60 1
        (updateCallback 60 (1/2) (updateCallback 60 0 (Callback.ofBeat 1 0)).2).2).2.time = 2 ∧
     (updateCallback 60 100 (Callback.ofBeat 1 0)).1 = 1) ∧
    (∀ bpm now cb, cb.enabled = true → cb.kind = CbKind.beat → now - cb.time ≥ 0 →
       (updateCallback bpm now cb).1 = 1 ∧
       (updateCallback bpm now cb).2.time = now + 60 / bpm * cb.frequency) ∧
    (∀ bpm now cb, (updateCallback bpm now cb).1 ≤ 1) ∧
    (∀ bpm now cb, cb.enabled = true → cb.kind = CbKind.tick →
       (updateCallback bpm now cb).1 = 1) ∧
    (∀ bpm now cbs, TimerModule.update bpm now cbs
       = cbs.map (fun p => (p.1, updateCallback bpm now p.2))) := by
  refine ⟨?_, ?_, ?_, ?_, ?_⟩
  · norm_num [updateCallback, Callback.ofBeat]
  · intro bpm now cb hen hkind hge
    simp [updateCallback, hen, hkind, hge]
  · intro bpm now cb
    unfold updateCallback
    split_ifs <;> cases cb.kind <;> simp
  · intro bpm now cb hen hkind
    simp [updateCallback, hen, hkind]
  · intro bpm now cbs
    rfl

/-- C3 counterexample: with the stop flag true at the first check (a script
that sets it immediately), the run terminates after one iteration, but `end`
is called on the polling module (the timer) before the command module (the
audio module), while construction order in `Runner::new` is audio before
timer — so the ends are not in construction order. -/
theorem C3_counterexample_end_order :
    runnerRun (fun _ => true) 1 = some (startTrace ++ iterTrace ++ endTrace) ∧
    endsOf (startTrace ++ iterTrace ++ endTrace) = [RMod.timerMod, RMod.audioMod] ∧
    constructionOrder = [RMod.audioMod, RMod.timerMod] ∧
    endsOf (startTrace ++ iterTrace ++ endTrace) ≠ constructionOrder := by
  refine ⟨rfl, rfl, rfl, ?_⟩
  decide

/-- C3 (amended): if the script-visible stop flag is true at the first
iteration's check, the runner terminates within one iteration and then calls
`end` exactly once on every module — the polling modules first and then the
command modules, each group in construction order (not all modules in overall
construction order). -/
theorem C3_stop_flag_ends_once (flags : Nat → Bool) (fuel : Nat)
    (h0 : flags 0 = true) (hf : 1 ≤ fuel) :
    runnerRun flags fuel = some (startTrace ++ iterTrace ++ endTrace) ∧
    (∀ m : RMod, (startTrace ++ iterTrace ++ endTrace).count (REvent.evEnd m) = 1) ∧
    endsOf (startTrace ++ iterTrace ++ endTrace) = pollingModules ++ commandModules := by
  obtain ⟨k, rfl⟩ : ∃ k, fuel = k + 1 := ⟨fuel - 1, by omega⟩
  refine ⟨?_, ?_, ?_⟩
  · simp [runnerRun, runLoop, h0]
  · intro m
    cases m <;> decide
  · decide

/-- Witness for the amended C3 at a concrete input: the constant-true flag
(the test script `_G.EndSong = true`) and fuel 5. -/
theorem C3_stop_flag_ends_once_witness :
    runnerRun (fun _ => true) 5 = some (startTrace ++ iterTrace ++ endTrace) ∧
    (∀ m : RMod, (startTrace ++ iterTrace ++ endTrace).count (REvent.evEnd m) = 1) ∧
    endsOf (startTrace ++ iterTrace ++ endTrace) = pollingModules ++ commandModules :=
  C3_stop_flag_ends_once (fun _ => true) 5 rfl (by norm_num)

/-- Structure eta for strings. -/
theorem stringMk_data (t : String) : String.mk t.data = t := rfl

/-- Delimiter-freeness by evaluation, for literal tokens. -/
theorem noSemi_of (t : String) (h : decide (';' ∈ t.data) = false) : noSemi t :=
  of_decide_eq_false h

/-- Splitting a delimiter-joined token list gives the tokens back, provided no
token contains the delimiter. -/
theorem tokenize_joinTokens (ts : List String) (h1 : ts ≠ [])
    (h2 : ∀ t ∈ ts, noSemi t) : tokenize (joinTokens ts) = ts := by
  have hx : ∀ l ∈ ts.map String.data, ';' ∉ l := by
    intro l hl
    rcases List.mem_map.mp hl with ⟨t, ht, rfl⟩
    exact h2 t ht
  have hls : ts.map String.data ≠ [] := by
    simp [h1]
  unfold tokenize joinTokens
  rw [show (String.mk (List.intercalate [';'] (ts.map String.data))).data
        = List.intercalate [';'] (ts.map String.data) from rfl,
      List.splitOn_intercalate _ ';' hx hls, List.map_map]
  simp [Function.comp_def, stringMk_data]

/-- The registered entry point forwards a `dsp`-prefixed token list to the
nested dsp dispatcher. -/
theorem command_dsp_forward (s : AudioModule) (rest : List String)
    (hr : ∀ t ∈ rest, noSemi t) :
    AudioModule.command s (joinTokens ("dsp" :: rest)) =
      (match s.dsp.commandTokens rest with
       | some (r, d') => some (r, { s with dsp := d' })
       | none => none) := by
  have ht : tokenize (joinTokens ("dsp" :: rest)) = "dsp" :: rest :=
    tokenize_joinTokens _ (by simp) (by
      intro t htm
      rcases List.mem_cons.mp htm with rfl | htm
      · exact noSemi_of _ rfl
      · exact hr t htm)
  unfold AudioModule.command
  rw [ht]
  rfl

/-- The registered entry point forwards an `audio`-prefixed token list to
`handle_command`. -/
theorem command_audio_forward (s : AudioModule) (rest : List String)
    (hr : ∀ t ∈ rest, noSemi t) :
    AudioModule.command s (joinTokens ("audio" :: rest)) = s.handleTokens rest := by
  have ht : tokenize (joinTokens ("audio" :: rest)) = "audio" :: rest :=
    tokenize_joinTokens _ (by simp) (by
      intro t htm
      rcases List.mem_cons.mp htm with rfl | htm
      · exact noSemi_of _ rfl
      · exact hr t htm)
  unfold AudioModule.command
  rw [ht]
  rfl

/-- On a well-formed store, `shared_set` cannot hit its panic path. -/
theorem shared_set_isSome (s : DspModule) (name : String) (v : ℚ)
    (hwf : SharedWf s) : ∃ p, s.shared_set name v = some p := by
  unfold DspModule.shared_set
  cases hl : s.shared.lookup name with
  | none => exact ⟨_, rfl⟩
  | some w =>
      rcases Option.isSome_iff_exists.mp (hwf name (by simp [hl])) with ⟨id, hid⟩
      rw [hid]
      exact ⟨_, rfl⟩

/-- C4 counterexample: the grammar lists the dsp-family commands without a
module-name prefix (`net_vector_length`, ...), but the runtime's registered
command entry point (`AudioModule::command`, bound as
`_audio_command_handler`) panics on them — only the nested dsp dispatcher
itself accepts the bare form. -/
theorem C4_counterexample_unprefixed_abort :
    AudioModule.new.command "net_vector_length" = none ∧
    DspModule.new.command "net_vector_length" = some ("7", DspModule.new) := by
  exact ⟨rfl, rfl⟩

/-- Delimiter-freeness for every token of a cons cell. -/
theorem noSemiCons (a : String) (ha : noSemi a) (l : List String)
    (hl : ∀ t ∈ l, noSemi t) : ∀ t ∈ a :: l, noSemi t := by
  intro t htm
  rcases List.mem_cons.mp htm with rfl | htm
  · exact ha
  · exact hl t htm

/-- Delimiter-freeness for the empty token list. -/
theorem noSemiNil : ∀ t ∈ ([] : List String), noSemi t := by
  intro t htm
  cases htm

/-- C4 (amended): every command string of the external-interface grammar
dispatches successfully — returns its documented string result rather than
aborting — through the runtime's registered command entry point
(`AudioModule::command`), provided the dsp-family commands carry the nested
module's name `dsp` as token 0, as the nested-module addressing rule
requires; the unprefixed dsp-family forms of the grammar list abort there
(see the counterexample).  Fields quantify over grammar-conforming tokens:
names and ids are delimiter-free, handles parse as decimal naturals, floats
as plain decimals. -/
theorem C4_prefixed_commands_dispatch :
    (∀ s name, noSemi name →
       AudioModule.command s (joinTokens ["dsp", "shared_exists", name])
         = some (toString (s.dsp.shared_exists name), s)) ∧
    (∀ s name vTok v, noSemi name → noSemi vTok → parseFloatQ vTok = some v →
       SharedWf s.dsp →
       ∃ id d', s.dsp.shared_set name v = some (id, d') ∧
         AudioModule.command s (joinTokens ["dsp", "shared_set", name, vTok])
           = some (toString id, { s with dsp := d' })) ∧
    (∀ s name, noSemi name →
       AudioModule.command s (joinTokens ["dsp", "shared_get", name])
         = some ((s.dsp.shared_get name).elim "nil" ratToDecString, s)) ∧
    (∀ s name, noSemi name →
       AudioModule.command s (joinTokens ["dsp", "shared_get_net", name])
         = some ((s.dsp.shared_get_net name).elim "nil" toString, s)) ∧
    (∀ s tok id, noSemi tok → tok.toNat? = some id →
       AudioModule.command s (joinTokens ["dsp", "net_exists", tok])
         = some (toString (s.dsp.net_exists id), s)) ∧
    (∀ s tok id, noSemi tok → tok.toNat? = some id →
       AudioModule.command s (joinTokens ["dsp", "net_clone", tok])
         = some (if s.dsp.net_exists id
                 then (toString s.dsp.nets.length,
                       { s with dsp := (s.dsp.net_from (s.dsp.nets.getD id junkNet)).2 })
                 else ("nil", s))) ∧
    (∀ s tok v, noSemi tok → parseFloatQ tok = some v →
       AudioModule.command s (joinTokens ["dsp", "net_constant", tok])
         = some (toString s.dsp.nets.length, { s with dsp := (s.dsp.net_constant v).2 })) ∧
    (∀ s, AudioModule.command s (joinTokens ["dsp", "net_vector_length"])
       = some (toString s.dsp.net_vector_length, s)) ∧
    (∀ s t, AudioModule.command s (joinTokens ["dsp", "net_default", oscName t])
       = some (toString (NodeType.as_net_id t), s)) ∧
    (∀ s tokA tokB a b r d', noSemi tokA → noSemi tokB →
       tokA.toNat? = some a → tokB.toNat? = some b →
       s.dsp.net_product a b = (r, d') →
       AudioModule.command s (joinTokens ["dsp", "net_product", tokA, tokB])
         = some (r.elim "nil" toString, { s with dsp := d' })) ∧
    (∀ s tokA tokB a b r d', noSemi tokA → noSemi tokB →
       tokA.toNat? = some a → tokB.toNat? = some b →
       s.dsp.net_bus a b = (r, d') →
       AudioModule.command s (joinTokens ["dsp", "net_bus", tokA, tokB])
         = some (r.elim "nil" toString, { s with dsp := d' })) ∧
    (∀ s tokA tokB a b r d', noSemi tokA → noSemi tokB →
       tokA.toNat? = some a → tokB.toNat? = some b →
       s.dsp.net_pipe a b = (r, d') →
       AudioModule.command s (joinTokens ["dsp", "net_pipe", tokA, tokB])
         = some (r.elim "nil" toString, { s with dsp := d' })) ∧
    (∀ s tok id, noSemi tok → tok.toNat? = some id →
       AudioModule.command s (joinTokens ["dsp", "net_commit", tok])
         = some ("nil", { s with dsp := s.dsp.net_commit id })) ∧
    (∀ s hTok dTok h d, noSemi hTok → noSemi dTok →
       hTok.toNat? = some h → parseFloatQ dTok = some d →
       AudioModule.command s (joinTokens ["audio", "play", hTok, dTok])
         = some (s.play h d)) ∧
    (∀ s eTok, noSemi eTok →
       AudioModule.command s (joinTokens ["audio", "stop", eTok])
         = some (s.stop eTok)) := by
  refine ⟨?_, ?_, ?_, ?_, ?_, ?_, ?_, ?_, ?_, ?_, ?_, ?_, ?_, ?_, ?_⟩
  · intro s name hn
    rw [command_dsp_forward s ["shared_exists", name]
      (noSemiCons _ (by exact noSemi_of _ rfl) _ (noSemiCons _ hn _ noSemiNil))]
    rfl
  · intro s name vTok v hn hv hp hwf
    rcases shared_set_isSome s.dsp name v hwf with ⟨⟨id, d'⟩, hset⟩
    refine ⟨id, d', hset, ?_⟩
    rw [command_dsp_forward s ["shared_set", name, vTok]
      (noSemiCons _ (by exact noSemi_of _ rfl) _
        (noSemiCons _ hn _ (noSemiCons _ hv _ noSemiNil)))]
    have hct : s.dsp.commandTokens ["shared_set", name, vTok]
        = (match parseFloatQ vTok with
           | some v =>
               (match s.dsp.shared_set name v with
                | some (id, s') => some (toString id, s')
                | none => none)
           | none => none) := rfl
    simp only [hct, hp, hset]
  · intro s name hn
    rw [command_dsp_forward s ["shared_get", name]
      (noSemiCons _ (by exact noSemi_of _ rfl) _ (noSemiCons _ hn _ noSemiNil))]
    rfl
  · intro s name hn
    rw [command_dsp_forward s ["shared_get_net", name]
      (noSemiCons _ (by exact noSemi_of _ rfl) _ (noSemiCons _ hn _ noSemiNil))]
    rfl
  · intro s tok id hn hp
    rw [command_dsp_forward s ["net_exists", tok]
      (noSemiCons _ (by exact noSemi_of _ rfl) _ (noSemiCons _ hn _ noSemiNil))]
    have hct : s.dsp.commandTokens ["net_exists", tok]
        = (match tok.toNat? with
           | some id => some (toString (s.dsp.net_exists id), s.dsp)
           | none => none) := rfl
    simp only [hct, hp]
  · intro s tok id hn hp
    rw [command_dsp_forward s ["net_clone", tok]
      (noSemiCons _ (by exact noSemi_of _ rfl) _ (noSemiCons _ hn _ noSemiNil))]
    have hct : s.dsp.commandTokens ["net_clone", tok]
        = (match tok.toNat? with
           | some id =>
               if s.dsp.net_exists id then
                 some (toString (s.dsp.net_from (s.dsp.nets.getD id junkNet)).1,
                       (s.dsp.net_from (s.dsp.nets.getD id junkNet)).2)
               else some ("nil", s.dsp)
           | none => none) := rfl
    by_cases hex : s.dsp.net_exists id
    · simp only [hct, hp, hex, if_true]
      rfl
    · simp only [hct, hp, hex, if_false]
      rfl
  · intro s tok v hn hp
    rw [command_dsp_forward s ["net_constant", tok]
      (noSemiCons _ (by exact noSemi_of _ rfl) _ (noSemiCons _ hn _ noSemiNil))]
    have hct : s.dsp.commandTokens ["net_constant", tok]
        = (match parseFloatQ tok with
           | some v => some (toString (s.dsp.net_constant v).1, (s.dsp.net_constant v).2)
           | none => none) := rfl
    simp only [hct, hp]
    rfl
  · intro s
    rw [command_dsp_forward s ["net_vector_length"]
      (noSemiCons _ (by exact noSemi_of _ rfl) _ noSemiNil)]
    rfl
  · intro s t
    cases t <;>
      rw [command_dsp_forward s ["net_default", oscName _]
        (noSemiCons _ (by exact noSemi_of _ rfl) _ (noSemiCons _ (by exact noSemi_of _ rfl) _ noSemiNil))] <;>
      rfl
  · intro s tokA tokB a b r d' hA hB hpa hpb hout
    rw [command_dsp_forward s ["net_product", tokA, tokB]
      (noSemiCons _ (by exact noSemi_of _ rfl) _
        (noSemiCons _ hA _ (noSemiCons _ hB _ noSemiNil)))]
    have hct : s.dsp.commandTokens ["net_product", tokA, tokB]
        = (match tokA.toNat?, tokB.toNat? with
           | some a, some b =>
               (match s.dsp.net_product a b with
                | (some id, s') => some (toString id, s')
                | (none, s') => some ("nil", s'))
           | _, _ => none) := rfl
    rcases r with _ | id <;> simp only [hct, hpa, hpb, hout] <;> rfl
  · intro s tokA tokB a b r d' hA hB hpa hpb hout
    rw [command_dsp_forward s ["net_bus", tokA, tokB]
      (noSemiCons _ (by exact noSemi_of _ rfl) _
        (noSemiCons _ hA _ (noSemiCons _ hB _ noSemiNil)))]
    have hct : s.dsp.commandTokens ["net_bus", tokA, tokB]
        = (match tokA.toNat?, tokB.toNat? with
           | some a, some b =>
               (match s.dsp.net_bus a b with
                | (some id, s') => some (toString id, s')
                | (none, s') => some ("nil", s'))
           | _, _ => none) := rfl
    rcases r with _ | id <;> simp only [hct, hpa, hpb, hout] <;> rfl
  · intro s tokA tokB a b r d' hA hB hpa hpb hout
    rw [command_dsp_forward s ["net_pipe", tokA, tokB]
      (noSemiCons _ (by exact noSemi_of _ rfl) _
        (noSemiCons _ hA _ (noSemiCons _ hB _ noSemiNil)))]
    have hct : s.dsp.commandTokens ["net_pipe", tokA, tokB]
        = (match tokA.toNat?, tokB.toNat? with
           | some a, some b =>
               (match s.dsp.net_pipe a b with
                | (some id, s') => some (toString id, s')
                | (none, s') => some ("nil", s'))
           | _, _ => none) := rfl
    rcases r with _ | id <;> simp only [hct, hpa, hpb, hout] <;> rfl
  · intro s tok id hn hp
    rw [command_dsp_forward s ["net_commit", tok]
      (noSemiCons _ (by exact noSemi_of _ rfl) _ (noSemiCons _ hn _ noSemiNil))]
    have hct : s.dsp.commandTokens ["net_commit", tok]
        = (match tok.toNat? with
           | some id => some ("nil", s.dsp.net_commit id)
           | none => none) := rfl
    simp only [hct, hp]
  · intro s hTok dTok h d hH hD hph hpd
    rw [command_audio_forward s ["play", hTok, dTok]
      (noSemiCons _ (by exact noSemi_of _ rfl) _
        (noSemiCons _ hH _ (noSemiCons _ hD _ noSemiNil)))]
    have hct : s.handleTokens ["play", hTok, dTok]
        = (match hTok.toNat?, parseFloatQ dTok with
           | some h, some d => some (s.play h d)
           | _, _ => none) := rfl
    simp only [hct, hph, hpd]
  · intro s eTok he
    rw [command_audio_forward s ["stop", eTok] (noSemiCons _ (by exact noSemi_of _ rfl) _
      (noSemiCons _ he _ noSemiNil))]
    rfl

end OCTMM
